import Mathlib

/-!
Verification development for the AceInsight browser application.

The definitions below are a shallow embedding of the repository's
TypeScript source: the Gemini service module (`services/geminiService.ts`),
the React application shell (`App.tsx`), the video uploader
(`components/VideoUploader.tsx`), the style selector
(`components/StyleSelector.tsx`) and the shared types (`types.ts`).
JavaScript strings are modelled as Lean `String`, JavaScript `number`
durations as `ℚ`, nullable values as `Option`, and thrown exceptions as
`Except`.
-/

/-! ## JavaScript string primitives -/

/-- Models `String.prototype.toLowerCase` (simple case mapping on each
character; characters outside the ASCII range used by the keyword lists are
unaffected). -/
def jsToLowerCase (s : String) : String :=
  String.mk (s.data.map Char.toLower)

/-- Does the character list `hay` start with `needle`? -/
def charsStart : List Char → List Char → Bool
  | [], _ => true
  | _ :: _, [] => false
  | a :: as, b :: bs => a = b && charsStart as bs

/-- Models `String.prototype.startsWith`. -/
def jsStartsWith (s pre : String) : Bool :=
  charsStart pre.data s.data

/-- Does `hay` contain `needle` as a contiguous run? -/
def charsContain (needle : List Char) : List Char → Bool
  | [] => needle.isEmpty
  | b :: bs => charsStart needle (b :: bs) || charsContain needle bs

/-- Models `String.prototype.includes`. -/
def jsIncludes (s sub : String) : Bool :=
  charsContain sub.data s.data

/-- Models the JavaScript truthiness test on a `string | null` value:
`null` and the empty string are falsy. -/
def jsTruthy : Option String → Bool
  | none => false
  | some v => v ≠ ""

/-! ## Shared data model (`types.ts`) -/

/-- A grounding citation returned by the hosted model (`title` + `uri`),
from the `groundingSources` entry of `types.ts`. -/
structure Source where
  title : String
  uri : String
deriving DecidableEq, Repr

/-- The `role` field of a chat `Message` in `types.ts`. -/
inductive Role
  | user
  | model
  | system
deriving DecidableEq, Repr

/-- The serialized role string used by the context-prompt template. -/
def Role.toStr : Role → String
  | .user => "user"
  | .model => "model"
  | .system => "system"

/-- The `Message` interface of `types.ts`.  The `timestamp` is an abstract
clock value. -/
structure Message where
  id : String
  role : Role
  text : String
  timestamp : Nat
  isThinking : Bool
  videoTitle : Option String
  thumbnailUrl : Option String
  groundingSources : Option (List Source)
deriving DecidableEq, Repr

/-- A default message, used as the `List.getD` fallback in statements. -/
def dummyMessage : Message :=
  { id := "", role := Role.user, text := "", timestamp := 0,
    isThinking := false, videoTitle := none, thumbnailUrl := none,
    groundingSources := none }

/-- The five commentary style presets of `types.ts` (`CommentaryStyle`). -/
inductive CommentaryStyle
  | PROFESSIONAL
  | EXCITED
  | TECHNICAL
  | HUMOROUS
  | POETIC
deriving DecidableEq, Repr

/-- The string value each `CommentaryStyle` enum member carries in
`types.ts`; this is the label interpolated into the generation prompt. -/
def CommentaryStyle.value : CommentaryStyle → String
  | .PROFESSIONAL => "专业解说 (深度战术分析)"
  | .EXCITED => "激情粉丝 (高能量/呐喊)"
  | .TECHNICAL => "技术教练 (动作/机制)"
  | .HUMOROUS => "幽默风趣 (玩梗/吐槽)"
  | .POETIC => "文艺诗人 (优美/戏剧化)"

/-- One entry of the `styles` array in `components/StyleSelector.tsx`
(the icon component is dropped; it plays no role in the logic). -/
structure StyleOption where
  id : CommentaryStyle
  label : String
  desc : String
deriving DecidableEq, Repr

/-- The `styles` array of `components/StyleSelector.tsx`. -/
def styleSelectorStyles : List StyleOption :=
  [ { id := CommentaryStyle.PROFESSIONAL, label := "专业", desc := "深度与正式" },
    { id := CommentaryStyle.TECHNICAL, label := "教练", desc := "技术与战术" },
    { id := CommentaryStyle.EXCITED, label := "激情", desc := "高能呐喊" },
    { id := CommentaryStyle.HUMOROUS, label := "幽默", desc := "玩梗吐槽" },
    { id := CommentaryStyle.POETIC, label := "文艺", desc := "戏剧感" } ]

/-! ## Character budget (`geminiService.ts`, lines 93 and 205) -/

/-- `const maxChars = Math.max(20, Math.floor(videoDuration * 4.5));`
as computed by `generateVideoCommentary` (line 93). -/
def maxCharsCommentary (videoDuration : ℚ) : ℤ :=
  max 20 ⌊videoDuration * 4.5⌋

/-- `const maxChars = Math.max(20, Math.floor(videoDuration * 4.5));`
as computed by `sendFollowUpMessage` (line 205). -/
def maxCharsFollowUp (videoDuration : ℚ) : ℤ :=
  max 20 ⌊videoDuration * 4.5⌋

/-! ## JS number formatting -/

/-- Models `Number.prototype.toFixed(1)` for the nonnegative durations the
application passes (round to one decimal digit and print). -/
def toFixed1 (q : ℚ) : String :=
  let n : ℤ := ⌊q * 10 + 1 / 2⌋
  toString (n / 10) ++ "." ++ toString (n % 10)

/-! ## The commentary prompt (`geminiService.ts`, lines 95-133) -/

/-- The prompt template of `generateVideoCommentary` up to the point where
the style label is interpolated (lines 95-104). -/
def commentaryPromptPre (videoDuration : ℚ) : String :=
  "\n  你是一位世界顶级的网球解说员和社交媒体专家。\n" ++
  "  请分析这段网球视频片段。\n  \n" ++
  "  **硬性限制（CRITICAL）：**\n" ++
  "  1. **视频总时长为：" ++ toFixed1 videoDuration ++ "秒**。\n" ++
  "  2. 你的解说词必须能在视频播放时间内读完。\n" ++
  "  3. **字数严格限制**：按中文正常语速，请将正文控制在 **" ++
  toString (maxCharsCommentary videoDuration) ++ "字以内**。\n  \n" ++
  "  你的解说风格是："

/-- The prompt template of `generateVideoCommentary` after the style label
(lines 104-125). -/
def commentaryPromptPost (videoDuration : ℚ) : String :=
  "。\n  \n" ++
  "  **第一步：生成标题**\n" ++
  "  在开始解说之前，请先为这段视频生成一个【中文标题】。\n" ++
  "  标题要求：\n" ++
  "  1. **吸引人**：类似抖音/B站的爆款风格，能勾起用户点击欲望。\n" ++
  "  2. **准确**：基于视频真实内容，不能标题党（欺骗）。\n" ++
  "  3. **格式**：请严格按照此格式在第一行输出： \"标题：[这里是标题内容]\"。\n\n" ++
  "  **第二步：解说分析 (最高指令：所见即所得，绝不猜测)**\n" ++
  "  1. **精准的击球分析 (每一拍)**：\n" ++
  "     - **只描述确定的内容**。如果画面模糊，严禁猜测旋转或握拍。\n" ++
  "     - 重点捕捉关键球（制胜分、失误、战术变化）。\n  \n" ++
  "  2. **球员身份识别**：\n" ++
  "     - 除非画面极其清晰且能 100% 确认，否则**必须**使用视觉代称（“近端选手”、“发球方”）。\n  \n" ++
  "  3. **收尾**：\n" ++
  "     - 在解说末尾，请另起一行，用括号标注预估阅读时长，例如：\"(预估阅读时长：5.2秒 / 视频时长：" ++
  toFixed1 videoDuration ++ "秒)\"。\n  \n" ++
  "  全程使用**中文（简体）**。\n  "

/-- The search-mode suffix appended when `enableSearch` is set
(lines 127-131). -/
def commentarySearchSuffix : String :=
  "\n    【搜索增强模式】: 尝试识别球员。如果能确认，使用 Google Search 获取背景。如果无法确信，忽略搜索。\n    "

/-- The full prompt string built by `generateVideoCommentary`: the template
with the duration, the character budget and the style label interpolated,
plus the optional search suffix. -/
def buildCommentaryPrompt (videoDuration : ℚ) (style : CommentaryStyle)
    (enableSearch : Bool) : String :=
  commentaryPromptPre videoDuration ++ style.value ++
    commentaryPromptPost videoDuration ++
    (if enableSearch then commentarySearchSuffix else "")

/-! ## The streaming loop of `generateVideoCommentary` (lines 155-177) -/

/-- A grounding chunk of the response metadata; `web` is present when the
chunk carries a web citation. -/
structure GroundingChunk where
  web : Option Source
deriving DecidableEq, Repr

/-- One chunk of the streaming response: optional text plus the grounding
chunks of `chunk.candidates?.[0]?.groundingMetadata?.groundingChunks`. -/
structure StreamChunk where
  text : Option String
  groundingChunks : List GroundingChunk
deriving DecidableEq, Repr

/-- The text a chunk contributes (`undefined` contributes nothing). -/
def chunkText (c : StreamChunk) : String := c.text.getD ""

/-- The web sources pushed for one chunk (the `forEach` of lines 166-170). -/
def chunkWebs (c : StreamChunk) : List Source :=
  c.groundingChunks.filterMap (·.web)

/-- One `set` step of the JavaScript `Map` built on line 173: an existing
key is overwritten in place, a new key is appended. -/
def updateOrAppend (acc : List Source) (s : Source) : List Source :=
  if ∃ x ∈ acc, x.uri = s.uri then
    acc.map (fun x => if x.uri = s.uri then s else x)
  else acc ++ [s]

/-- `Array.from(new Map(groundingSources.map(item => [item.uri, item])).values())`
(line 173): deduplicate by `uri`, first-insertion order, last value wins. -/
def jsMapDedup (l : List Source) : List Source :=
  l.foldl updateOrAppend []

/-- `uniqueSources.length > 0 ? uniqueSources : undefined` (line 175). -/
def passedSources (gs : List Source) : Option (List Source) :=
  let uniqueSources := jsMapDedup gs
  if uniqueSources.length > 0 then some uniqueSources else none

/-- The loop state of `generateVideoCommentary`: the accumulated text, the
accumulated grounding sources, and the log of `onStream` invocations. -/
structure StreamState where
  fullText : String
  groundingSources : List Source
  callbackLog : List (String × Option (List Source))
deriving DecidableEq, Repr

/-- One iteration of the `for await` loop (lines 158-176). -/
def streamStep (st : StreamState) (chunk : StreamChunk) : StreamState :=
  let fullText :=
    match chunk.text with
    | some t => if t ≠ "" then st.fullText ++ t else st.fullText
    | none => st.fullText
  let groundingSources := st.groundingSources ++ chunkWebs chunk
  { fullText := fullText,
    groundingSources := groundingSources,
    callbackLog := st.callbackLog ++ [(fullText, passedSources groundingSources)] }

/-- The whole streaming loop over a list of received chunks; the function's
return value is the final `fullText`. -/
def runStream (chunks : List StreamChunk) : StreamState :=
  chunks.foldl streamStep
    { fullText := "", groundingSources := [], callbackLog := [] }

/-- Specification-side: the concatenation of all chunk texts in arrival
order. -/
def concatTexts : List StreamChunk → String
  | [] => ""
  | c :: cs => chunkText c ++ concatTexts cs

/-- Specification-side: all web sources received, in arrival order. -/
def collectSources : List StreamChunk → List Source
  | [] => []
  | c :: cs => chunkWebs c ++ collectSources cs

/-- Specification-side: the expected `onStream` log when starting from
accumulated text `ft0` and accumulated sources `gs0`. -/
def expectedLog (ft0 : String) (gs0 : List Source) :
    List StreamChunk → List (String × Option (List Source))
  | [] => []
  | c :: cs =>
    let ft := ft0 ++ chunkText c
    let gs := gs0 ++ chunkWebs c
    (ft, passedSources gs) :: expectedLog ft gs cs

/-- Specification-side: record a key, keeping only its first occurrence. -/
def addKey (acc : List String) (u : String) : List String :=
  if u ∈ acc then acc else acc ++ [u]

/-- Specification-side: the keys of a list in first-occurrence order. -/
def firstOccKeys (l : List String) : List String :=
  l.foldl addKey []

/-! ## Follow-up chat (`sendFollowUpMessage`, lines 189-314) -/

/-- The re-analysis keyword list (line 208). -/
def reAnalysisKeywords : List String :=
  ["重新分析", "再看一遍", "重看", "再分析", "re-analyze", "analyze again", "look again"]

/-- `reAnalysisKeywords.some(keyword => newMessage.toLowerCase().includes(keyword))`
(line 209). -/
def shouldReAnalyze (newMessage : String) : Bool :=
  reAnalysisKeywords.any (fun keyword => jsIncludes (jsToLowerCase newMessage) keyword)

/-- A request part sent to the model: either inline (video) bytes or text. -/
inductive ReqPart
  | inlineData (mimeType : String) (data : String)
  | text (s : String)
deriving DecidableEq, Repr

/-- Is a request part an inline-data (video bytes) part? -/
def ReqPart.isInline : ReqPart → Bool
  | .inlineData _ _ => true
  | .text _ => false

/-- The serialized chat history inside the context prompt (line 226):
`history.filter(h => h.role !== 'system').map(h => h.role + ': ' + h.text).join('\n')`. -/
def historyLines (history : List Message) : String :=
  String.intercalate "\n"
    ((history.filter (fun h => h.role ≠ Role.system)).map
      (fun h => h.role.toStr ++ ": " ++ h.text))

/-- The base context prompt of `sendFollowUpMessage` (lines 224-233). -/
def contextPromptBase (history : List Message) (newMessage : String)
    (videoDuration : ℚ) : String :=
  "\n  Previous context (Chat History):\n  " ++ historyLines history ++
  "\n  \n  Current User Instruction: " ++ newMessage ++
  "\n  \n  **硬性时长限制（CRITICAL）：**\n" ++
  "  视频总时长为 **" ++ toFixed1 videoDuration ++ "秒**。\n" ++
  "  任何生成的解说词/口播稿，字数必须严格控制在 **" ++
  toString (maxCharsFollowUp videoDuration) ++ "字以内**。\n  "

/-- The re-analysis-mode instruction suffix (lines 236-242). -/
def reAnalyzeSuffix (newMessage : String) (videoDuration : ℚ) : String :=
  "\n    **任务指令：【重新分析模式】**\n" ++
  "    用户明确要求重新分析视频。\n" ++
  "    1. 请忽略历史对话中可能存在的错误判断。\n" ++
  "    2. 结合视频画面，根据用户的新指令（\"" ++ newMessage ++
  "\"）进行全新的、更准确的解说或回答。\n" ++
  "    3. 必须在回答末尾标注：\"(预估阅读时长：X秒 / 视频时长：" ++
  toFixed1 videoDuration ++ "秒)\"。\n    "

/-- The conversation-adjustment-mode instruction suffix (lines 244-254). -/
def adjustSuffix (videoDuration : ℚ) : String :=
  "\n    **任务指令：【对话调整模式】**\n" ++
  "    用户正在请求调整解说风格或纠正内容。\n" ++
  "    1. 你**不需要**重新观看视频（为了节省资源）。请完全基于上述对话历史中的【初始解说】和已知的视频信息进行调整。\n" ++
  "    2. 如果用户指出解说有误、要求修改风格、或觉得太长/太短，请直接**重写**相应的解说段落。\n" ++
  "    3. **确保精炼**：不要解释你为什么修改，直接给出修改后的解说词即可。\n" ++
  "    4. 必须在回答末尾标注：\"(预估阅读时长：X秒 / 视频时长：" ++
  toFixed1 videoDuration ++ "秒)\"。\n    \n" ++
  "    5. **生成/修改封面**：\n" ++
  "       - 如果用户提到“封面”、“海报”、“缩略图”，请调用 `generateThumbnail` 工具。\n    "

/-- The full context prompt (base plus the mode-dependent suffix). -/
def buildContextPrompt (history : List Message) (newMessage : String)
    (videoDuration : ℚ) : String :=
  contextPromptBase history newMessage videoDuration ++
    (if shouldReAnalyze newMessage then reAnalyzeSuffix newMessage videoDuration
     else adjustSuffix videoDuration)

/-- The `parts` array assembled by `sendFollowUpMessage` (lines 211-257):
the video bytes are attached exactly when the keyword test succeeds and
`base64VideoData` is truthy, followed by the context prompt text. -/
def sendFollowUpParts (history : List Message) (newMessage : String)
    (base64VideoData : Option String) (mimeType : String)
    (videoDuration : ℚ) : List ReqPart :=
  (if shouldReAnalyze newMessage && jsTruthy base64VideoData then
      [ReqPart.inlineData mimeType (base64VideoData.getD "")]
   else []) ++
  [ReqPart.text (buildContextPrompt history newMessage videoDuration)]

/-- A function declaration handed to the model (the schema of
`thumbnailTool`, lines 8-21, flattened to the fields the logic uses). -/
structure FunctionDecl where
  name : String
  description : String
  paramNames : List String
  required : List String
deriving DecidableEq, Repr

/-- The `thumbnailTool` declaration (lines 8-21). -/
def thumbnailTool : FunctionDecl :=
  { name := "generateThumbnail",
    description := "Call this tool when the user asks to generate a cover, thumbnail, or poster, OR when they ask to modify the existing cover.",
    paramNames := ["visualPrompt"],
    required := ["visualPrompt"] }

/-- A tool entry of the request config. -/
inductive Tool
  | functionDeclarations (decls : List FunctionDecl)
  | googleSearch
deriving DecidableEq, Repr

/-- The `tools` array of `sendFollowUpMessage` (lines 259-263). -/
def sendFollowUpTools (enableSearch : Bool) : List Tool :=
  [Tool.functionDeclarations [thumbnailTool]] ++
    (if enableSearch then [Tool.googleSearch] else [])

/-- The function declarations carried by a tool entry, if any. -/
def toolFunctionDecls : Tool → Option (List FunctionDecl)
  | .functionDeclarations decls => some decls
  | .googleSearch => none

/-! ## Model responses (shape shared by `sendFollowUpMessage` and
`generateAIImage`) -/

/-- A function call returned by the model; `args` maps argument names to
string values. -/
structure FunctionCall where
  name : String
  args : List (String × String)
deriving DecidableEq, Repr

/-- Inline binary data in a response part. -/
structure InlineData where
  mimeType : String
  data : String
deriving DecidableEq, Repr

/-- One part of a response candidate's content. -/
structure RespPart where
  inlineData : Option InlineData
  functionCall : Option FunctionCall
deriving DecidableEq, Repr

/-- A candidate's content. -/
structure Content where
  parts : List RespPart
deriving DecidableEq, Repr

/-- A response candidate. -/
structure Candidate where
  content : Content
deriving DecidableEq, Repr

/-- A (non-streaming) `generateContent` response. -/
structure GenResponse where
  candidates : List Candidate
deriving DecidableEq, Repr

/-- The parts of the first candidate's content (empty when there is no
candidate). -/
def partsOfFirstCandidate (resp : GenResponse) : List RespPart :=
  match resp.candidates.head? with
  | some c => c.content.parts
  | none => []

/-- Models the vendor SDK's `response.functionCalls` helper: every function
call carried by the parts of the first candidate's content. -/
def respFunctionCalls (resp : GenResponse) : List FunctionCall :=
  (partsOfFirstCandidate resp).filterMap (·.functionCall)

/-- `response.candidates?.[0]?.content?.parts?.[0]?.functionCall`
(line 276). -/
def firstPartFunctionCall (resp : GenResponse) : Option FunctionCall :=
  match (partsOfFirstCandidate resp).head? with
  | some p => p.functionCall
  | none => none

/-- The call list `sendFollowUpMessage` actually inspects (lines 276-278):
the first part's call alone when the first part carries one, otherwise the
SDK helper list. -/
def selectedCalls (resp : GenResponse) : List FunctionCall :=
  match firstPartFunctionCall resp with
  | some fc => [fc]
  | none => respFunctionCalls resp

/-- `call.args['visualPrompt']`: argument lookup on a function call. -/
def lookupArg (call : FunctionCall) (key : String) : Option String :=
  (call.args.find? (fun kv => kv.1 = key)).map (·.2)

/-- The structured `thumbnailCall` result field (line 199). -/
structure ThumbnailCall where
  visualPrompt : Option String
deriving DecidableEq, Repr

/-- Lines 275-287: find a call named `generateThumbnail` among the selected
calls and package its `visualPrompt` argument. -/
def extractThumbnailCall (resp : GenResponse) : Option ThumbnailCall :=
  let functionCalls := selectedCalls resp
  if functionCalls.length > 0 then
    match functionCalls.find? (fun fc => fc.name = "generateThumbnail") with
    | some call => some { visualPrompt := lookupArg call "visualPrompt" }
    | none => none
  else none

/-! ## Video upload (`components/VideoUploader.tsx` and
`fileToGenerativePart`, `geminiService.ts` lines 24-36) -/

/-- An uploaded `File`: its MIME type, its byte size, and the base64
encoding of its contents (the browser produces the encoding; it contains no
comma, being drawn from the base64 alphabet). -/
structure FileModel where
  type : String
  size : Nat
  b64 : String
deriving DecidableEq, Repr

/-- Models `FileReader.readAsDataURL`: a data URL
`data:<mime>;base64,<data>`. -/
def readAsDataURL (f : FileModel) : String :=
  "data:" ++ f.type ++ ";base64," ++ f.b64

/-- `String.prototype.split(',')`, on character lists. -/
def splitOnComma : List Char → List (List Char)
  | [] => [[]]
  | x :: xs =>
    match splitOnComma xs with
    | [] => [[]]
    | h :: t => if x = ',' then [] :: h :: t else (x :: h) :: t

/-- `fileToGenerativePart` (lines 24-36): read the file as a data URL and
keep what follows the first comma. -/
def fileToGenerativePart (f : FileModel) : String :=
  String.mk ((splitOnComma (readAsDataURL f).data).getD 1 [])

/-- The `VideoState` interface of `types.ts`. -/
structure VideoState where
  file : Option FileModel
  previewUrl : Option String
  base64Data : Option String
  mimeType : String
deriving DecidableEq, Repr

/-- Models `URL.createObjectURL` abstractly: some local blob URL derived
from the file. -/
def createObjectURL (f : FileModel) : String :=
  "blob:" ++ f.type

/-- `processFile` of `components/VideoUploader.tsx` (lines 26-56): `none`
means the file was rejected (alert shown, no `onVideoSelected` call and no
state change); `some st` is the state handed to `onVideoSelected`. -/
def processFile (f : FileModel) : Option VideoState :=
  if ¬ jsStartsWith f.type "video/" then none
  else if f.size > 20 * 1024 * 1024 then none
  else some { file := some f,
              previewUrl := some (createObjectURL f),
              base64Data := some (fileToGenerativePart f),
              mimeType := f.type }

/-! ## `generateAIImage` (`geminiService.ts`, lines 42-77) -/

/-- The `for` loop of lines 66-70: the `data` of the first part carrying
`inlineData`. -/
def findInlineImage : List RespPart → Option String
  | [] => none
  | p :: ps =>
    match p.inlineData with
    | some d => some d.data
    | none => findInlineImage ps

/-- `generateAIImage`'s response handling (lines 64-72): return a PNG data
URL built from the first inline-data part, or throw. -/
def generateAIImage (resp : GenResponse) : Except String String :=
  match resp.candidates.head? with
  | some c =>
    match findInlineImage c.content.parts with
    | some d => Except.ok ("data:image/png;base64," ++ d)
    | none => Except.error "No image generated in response"
  | none => Except.error "No image generated in response"

/-! ## Message-list updates (`App.tsx`) -/

/-- A functional update of one message: `some` fields are overwritten,
`none` fields are kept (the `{ ...msg, ... }` spread). -/
structure MsgUpdate where
  text : Option String
  isThinking : Option Bool
  groundingSources : Option (Option (List Source))
  thumbnailUrl : Option (Option String)
deriving DecidableEq, Repr

/-- Apply an update to one message (the object spread `{ ...msg, ... }`). -/
def applyU (u : MsgUpdate) (m : Message) : Message :=
  { m with
    text := u.text.getD m.text,
    isThinking := u.isThinking.getD m.isThinking,
    groundingSources := u.groundingSources.getD m.groundingSources,
    thumbnailUrl := u.thumbnailUrl.getD m.thumbnailUrl }

/-- `setMessages(prev => prev.map(msg => msg.id === msgId ? {...msg, ...} : msg))`:
the update shape used by every streaming, completion and error handler in
`App.tsx`. -/
def applyUpdate (msgId : String) (u : MsgUpdate) (l : List Message) :
    List Message :=
  l.map (fun msg => if msg.id = msgId then applyU u msg else msg)

/-- The streaming update of `handleStartAnalysis` (lines 104-113). -/
def streamUpdate (t : String) (gs : Option (List Source)) : MsgUpdate :=
  { text := some t, isThinking := some false,
    groundingSources := some gs, thumbnailUrl := none }

/-- The error updates of `App.tsx` (lines 117-121 and 200-204). -/
def errorUpdate (t : String) : MsgUpdate :=
  { text := some t, isThinking := some false,
    groundingSources := none, thumbnailUrl := none }

/-- The completion update of `handleSendMessage` (lines 186-196). -/
def completionUpdate (t : String) (gs : Option (List Source))
    (thumb : Option String) : MsgUpdate :=
  { text := some t, isThinking := some false,
    groundingSources := some gs, thumbnailUrl := some thumb }

/-- Merge two updates: the later update's fields win where both write. -/
def mergeU (u1 u2 : MsgUpdate) : MsgUpdate :=
  { text := u2.text <|> u1.text,
    isThinking := u2.isThinking <|> u1.isThinking,
    groundingSources := u2.groundingSources <|> u1.groundingSources,
    thumbnailUrl := u2.thumbnailUrl <|> u1.thumbnailUrl }

/-! ## Thumbnail generation flow (`App.tsx`, lines 164-196) -/

/-- The result record of `sendFollowUpMessage` (lines 196-200 and 304-308). -/
structure FollowUpResult where
  text : String
  groundingSources : Option (List Source)
  thumbnailCall : Option ThumbnailCall
deriving DecidableEq, Repr

/-- Lines 164-184 of `App.tsx`: given the follow-up response text and
thumbnail call, the captured frame (`null` when capture failed) and the
image-generation outcome `gen`, produce the final bot text, the stored
thumbnail URL, and the log of `generateAIImage` invocations
(frame, visualPrompt). -/
def handleThumbnailFlow (respText : String) (call : Option ThumbnailCall)
    (frame : Option String)
    (gen : String → Option String → Except Unit String) :
    String × Option String × List (String × Option String) :=
  match call with
  | none => (respText, none, [])
  | some c =>
    if jsTruthy frame then
      let f := frame.getD ""
      match gen f c.visualPrompt with
      | Except.ok url => (respText, some url, [(f, c.visualPrompt)])
      | Except.error _ =>
        (respText ++ "\n\n(封面生成失败，请重试)", none, [(f, c.visualPrompt)])
    else
      (respText ++ "\n\n(无法获取视频画面，请确保视频已加载)", none, [])

/-- The completion update `handleSendMessage` finally applies (lines
186-196), together with the image-generation call log. -/
def followUpFinalUpdate (resp : FollowUpResult) (frame : Option String)
    (gen : String → Option String → Except Unit String) :
    MsgUpdate × List (String × Option String) :=
  let r := handleThumbnailFlow resp.text resp.thumbnailCall frame gen
  (completionUpdate r.1 resp.groundingSources r.2.1, r.2.2)

/-- A response part with neither inline data nor a function call; the
`List.getD` fallback in statements. -/
def dummyRespPart : RespPart := { inlineData := none, functionCall := none }

/-- A stream chunk with no text and no grounding; the `List.getD` fallback
in statements. -/
def dummyChunk : StreamChunk := { text := none, groundingChunks := [] }

/-! ## Helper lemmas -/

theorem strAppend_empty (s : String) : s ++ "" = s :=
  String.ext (by rw [String.data_append]; exact List.append_nil _)

theorem strEmpty_append (s : String) : "" ++ s = s :=
  String.ext (by rw [String.data_append]; rfl)

theorem strAppend_assoc (a b c : String) : a ++ b ++ c = a ++ (b ++ c) :=
  String.ext (by simp [String.data_append])

theorem charsStart_iff (n : List Char) : ∀ h : List Char,
    charsStart n h = true ↔ n <+: h := by
  induction n with
  | nil => intro h; simp [charsStart]
  | cons a as ih =>
    intro h
    cases h with
    | nil => simp [charsStart]
    | cons b bs => simp [charsStart, List.cons_prefix_cons, ih, and_comm]

/-! ## C1 -/

/-- C1: for every video duration `d`, `generateVideoCommentary` and
`sendFollowUpMessage` compute the same character budget
`max(20, floor(d * 4.5))`, which is never below 20. -/
theorem maxChars_agree_and_lower_bound (d : ℚ) :
    maxCharsCommentary d = maxCharsFollowUp d ∧
    maxCharsCommentary d = max 20 ⌊d * (9 / 2 : ℚ)⌋ ∧
    20 ≤ maxCharsCommentary d := by
  refine ⟨rfl, ?_, le_max_left _ _⟩
  norm_num [maxCharsCommentary]

/-! ## C7 -/

/-- C7: there are exactly five commentary style presets (the selector lists
each member of `CommentaryStyle` exactly once), and for every selected
style the prompt built by `generateVideoCommentary` contains that style's
label. -/
theorem five_styles_and_label_in_prompt :
    styleSelectorStyles.length = 5 ∧
    (∀ s : CommentaryStyle, s ∈ styleSelectorStyles.map (·.id)) ∧
    (styleSelectorStyles.map (·.id)).Nodup ∧
    ∀ (s : CommentaryStyle) (d : ℚ) (es : Bool),
      (CommentaryStyle.value s).data <:+: (buildCommentaryPrompt d s es).data := by
  refine ⟨rfl, ?_, by decide, ?_⟩
  · intro s
    cases s <;> simp [styleSelectorStyles]
  · intro s d es
    refine ⟨(commentaryPromptPre d).data,
      (commentaryPromptPost d ++ (if es then commentarySearchSuffix else "")).data, ?_⟩
    simp [buildCommentaryPrompt, String.data_append, List.append_assoc]

/-! ## C4: upload validation -/

theorem splitOnComma_cons (x : Char) (xs : List Char) :
    splitOnComma (x :: xs) =
      match splitOnComma xs with
      | [] => [[]]
      | h :: t => if x = ',' then [] :: h :: t else (x :: h) :: t := rfl

theorem splitOnComma_ne_nil (l : List Char) : splitOnComma l ≠ [] := by
  cases l with
  | nil => simp [splitOnComma]
  | cons x xs =>
    rw [splitOnComma_cons]
    cases h : splitOnComma xs with
    | nil => simp
    | cons a t =>
      by_cases hx : x = ',' <;> simp [hx]

theorem splitOnComma_no_comma (l : List Char) (h : ',' ∉ l) :
    splitOnComma l = [l] := by
  induction l with
  | nil => rfl
  | cons x xs ih =>
    simp only [List.mem_cons, not_or] at h
    obtain ⟨hx, hxs⟩ := h
    have hx' : x ≠ ',' := fun he => hx he.symm
    rw [splitOnComma_cons, ih hxs]
    simp [hx']

theorem splitOnComma_append (l r : List Char) (h : ',' ∉ l) :
    splitOnComma (l ++ ',' :: r) = l :: splitOnComma r := by
  induction l with
  | nil =>
    simp only [List.nil_append]
    rw [splitOnComma_cons]
    cases hr : splitOnComma r with
    | nil => exact absurd hr (splitOnComma_ne_nil r)
    | cons a t => simp
  | cons x xs ih =>
    simp only [List.mem_cons, not_or] at h
    obtain ⟨hx, hxs⟩ := h
    have hx' : x ≠ ',' := fun he => hx he.symm
    simp only [List.cons_append]
    rw [splitOnComma_cons, ih hxs]
    simp [hx']

theorem fileToGenerativePart_strips (f : FileModel)
    (htype : ',' ∉ f.type.data) (hb64 : ',' ∉ f.b64.data) :
    fileToGenerativePart f = f.b64 := by
  have hdata : (readAsDataURL f).data =
      ("data:".data ++ f.type.data ++ ";base64".data) ++ ',' :: f.b64.data := by
    show ("data:" ++ f.type ++ ";base64," ++ f.b64).data = _
    simp only [String.data_append, List.append_assoc]
    rfl
  have hpre : ',' ∉ "data:".data ++ f.type.data ++ ";base64".data := by
    simp only [List.mem_append]
    rintro ((h | h) | h)
    · revert h; decide
    · exact htype h
    · revert h; decide
  unfold fileToGenerativePart
  rw [hdata, splitOnComma_append _ _ hpre, splitOnComma_no_comma _ hb64]
  show String.mk f.b64.data = f.b64
  exact String.ext rfl

/-- C4: `processFile` accepts an uploaded file exactly when its MIME type
starts with `video/` and its size is at most `20*1024*1024` bytes; a
rejected file yields no state (no `onVideoSelected` call), and an accepted
file yields a state carrying a preview URL, the file's base64 encoding with
the data-URL prefix stripped, and the file's MIME type. -/
theorem processFile_spec (f : FileModel)
    (htype : ',' ∉ f.type.data) (hb64 : ',' ∉ f.b64.data) :
    ((processFile f).isSome ↔
      ("video/".data <+: f.type.data ∧ f.size ≤ 20 * 1024 * 1024)) ∧
    ∀ st, processFile f = some st →
      st.base64Data = some f.b64 ∧ st.mimeType = f.type ∧
      st.previewUrl.isSome ∧ st.file = some f := by
  constructor
  · unfold processFile
    by_cases h1 : jsStartsWith f.type "video/" = true
    · have h1' : "video/".data <+: f.type.data := (charsStart_iff _ _).mp h1
      by_cases h2 : f.size ≤ 20 * 1024 * 1024
      · have h2' : ¬ f.size > 20 * 1024 * 1024 := by omega
        simp [h1, h2', h1', h2]
      · have h2' : f.size > 20 * 1024 * 1024 := by omega
        simp [h1, h2', h2]
    · have h1' : ¬ "video/".data <+: f.type.data :=
        fun hp => h1 ((charsStart_iff _ _).mpr hp)
      simp [h1, h1']
  · intro st hst
    unfold processFile at hst
    by_cases h1 : jsStartsWith f.type "video/" = true
    · by_cases h2 : f.size > 20 * 1024 * 1024
      · simp [h1, h2] at hst
      · simp [h1, h2] at hst
        rw [← hst]
        exact ⟨by simp [fileToGenerativePart_strips f htype hb64], rfl, by simp, rfl⟩
    · simp [h1] at hst

/-- Witness for C4 at a concrete accepted file. -/
theorem processFile_spec_witness :
    (',' ∉ ("video/mp4" : String).data) ∧ (',' ∉ ("AAAA" : String).data) ∧
    (processFile { type := "video/mp4", size := 4, b64 := "AAAA" }).isSome := by
  refine ⟨by decide, by decide, ?_⟩
  exact ((processFile_spec { type := "video/mp4", size := 4, b64 := "AAAA" }
    (by decide) (by decide)).1).mpr ⟨by decide, by norm_num⟩

/-! ## C9: generateAIImage -/

theorem findInlineImage_eq_none_iff (ps : List RespPart) :
    findInlineImage ps = none ↔ ∀ p ∈ ps, p.inlineData = none := by
  induction ps with
  | nil => simp [findInlineImage]
  | cons p ps ih =>
    unfold findInlineImage
    cases hp : p.inlineData with
    | some d => simp [hp]
    | none => simp [hp, ih]

theorem findInlineImage_first (ps : List RespPart) : ∀ (i : ℕ),
    i < ps.length →
    ∀ m dat, (ps.getD i dummyRespPart).inlineData = some ⟨m, dat⟩ →
    (∀ j, j < i → (ps.getD j dummyRespPart).inlineData = none) →
    findInlineImage ps = some dat := by
  induction ps with
  | nil => intro i hi; simp at hi
  | cons p ps ih =>
    intro i hi m dat hdat hbefore
    cases i with
    | zero =>
      rw [List.getD_cons_zero] at hdat
      unfold findInlineImage
      rw [hdat]
    | succ i' =>
      have hp : p.inlineData = none := by
        have := hbefore 0 (Nat.succ_pos i')
        rwa [List.getD_cons_zero] at this
      unfold findInlineImage
      rw [hp]
      rw [List.getD_cons_succ] at hdat
      refine ih i' (by simpa using hi) m dat hdat ?_
      intro j hj
      have := hbefore (j + 1) (by omega)
      rwa [List.getD_cons_succ] at this

/-- C9: `generateAIImage` returns `data:image/png;base64,` prepended to the
data of the first response part carrying `inlineData`, and throws exactly
when no part of the first candidate's content carries inline data. -/
theorem generateAIImage_spec (resp : GenResponse) :
    (∀ i, i < (partsOfFirstCandidate resp).length →
      ∀ m dat,
        ((partsOfFirstCandidate resp).getD i dummyRespPart).inlineData = some ⟨m, dat⟩ →
        (∀ j, j < i →
          ((partsOfFirstCandidate resp).getD j dummyRespPart).inlineData = none) →
        generateAIImage resp = Except.ok ("data:image/png;base64," ++ dat)) ∧
    ((∀ p ∈ partsOfFirstCandidate resp, p.inlineData = none) ↔
      generateAIImage resp = Except.error "No image generated in response") := by
  unfold generateAIImage partsOfFirstCandidate
  cases hc : resp.candidates.head? with
  | none =>
    refine ⟨?_, ?_⟩
    · intro i hi
      simp at hi
    · simp
  | some c =>
    refine ⟨?_, ?_⟩
    · intro i hi m dat hdat hbefore
      dsimp only at hi hdat hbefore ⊢
      rw [findInlineImage_first c.content.parts i hi m dat hdat hbefore]
    · constructor
      · intro hall
        dsimp only at hall ⊢
        rw [(findInlineImage_eq_none_iff c.content.parts).mpr hall]
      · intro herr p hp
        dsimp only at herr hp
        cases hf : findInlineImage c.content.parts with
        | some d => rw [hf] at herr; exact absurd herr (by simp)
        | none => exact (findInlineImage_eq_none_iff c.content.parts).mp hf p hp

/-- Witness for C9: a response whose second part carries the image. -/
theorem generateAIImage_spec_witness :
    (1 < (partsOfFirstCandidate
      ⟨[⟨⟨[⟨none, none⟩, ⟨some ⟨"image/png", "IMG"⟩, none⟩]⟩⟩]⟩).length) ∧
    generateAIImage ⟨[⟨⟨[⟨none, none⟩, ⟨some ⟨"image/png", "IMG"⟩, none⟩]⟩⟩]⟩ =
      Except.ok ("data:image/png;base64," ++ "IMG") := by
  refine ⟨by decide, ?_⟩
  exact (generateAIImage_spec
      ⟨[⟨⟨[⟨none, none⟩, ⟨some ⟨"image/png", "IMG"⟩, none⟩]⟩⟩]⟩).1
    1 (by decide) "image/png" "IMG" (by decide)
    (fun j hj => by interval_cases j; decide)

/-! ## C8: thumbnail generation flow -/

theorem handleThumbnailFlow_ok (respText : String) (c : ThumbnailCall)
    (f : String) (gen : String → Option String → Except Unit String)
    (url : String) (hne : f ≠ "") (hurl : gen f c.visualPrompt = Except.ok url) :
    handleThumbnailFlow respText (some c) (some f) gen =
      (respText, some url, [(f, c.visualPrompt)]) := by
  have ht : jsTruthy (some f) = true := by simp [jsTruthy, hne]
  unfold handleThumbnailFlow
  rw [ht]
  simp only [if_true, Option.getD_some]
  rw [hurl]

theorem handleThumbnailFlow_calls (respText : String) (c : ThumbnailCall)
    (f : String) (gen : String → Option String → Except Unit String)
    (hne : f ≠ "") :
    (handleThumbnailFlow respText (some c) (some f) gen).2.2 =
      [(f, c.visualPrompt)] := by
  have ht : jsTruthy (some f) = true := by simp [jsTruthy, hne]
  unfold handleThumbnailFlow
  rw [ht]
  simp only [if_true, Option.getD_some]
  cases hg : gen f c.visualPrompt with
  | ok url => simp
  | error e => simp

/-- C8: when the follow-up response carries a thumbnail call and a frame is
captured, `handleSendMessage` invokes the image generation exactly once,
with exactly the captured frame and the model-authored `visualPrompt`, and
stores the returned image URL on the bot message via the completion update;
when no frame is captured, no image-generation call is made and the failure
note is appended to the text instead. -/
theorem handleThumbnailFlow_spec (respText : String) (c : ThumbnailCall)
    (frame : Option String)
    (gen : String → Option String → Except Unit String) :
    (∀ f, frame = some f → f ≠ "" →
      (handleThumbnailFlow respText (some c) frame gen).2.2 =
        [(f, c.visualPrompt)] ∧
      ∀ url, gen f c.visualPrompt = Except.ok url →
        handleThumbnailFlow respText (some c) frame gen =
          (respText, some url, [(f, c.visualPrompt)])) ∧
    (jsTruthy frame = false →
      handleThumbnailFlow respText (some c) frame gen =
        (respText ++ "\n\n(无法获取视频画面，请确保视频已加载)", none, [])) ∧
    (handleThumbnailFlow respText none frame gen = (respText, none, [])) ∧
    (∀ (r : FollowUpResult) f url, r.thumbnailCall = some c →
      frame = some f → f ≠ "" → gen f c.visualPrompt = Except.ok url →
      followUpFinalUpdate r frame gen =
        (completionUpdate r.text r.groundingSources (some url),
          [(f, c.visualPrompt)])) ∧
    (∀ ft gs tu m, (applyU (completionUpdate ft gs tu) m).thumbnailUrl = tu ∧
      (applyU (completionUpdate ft gs tu) m).text = ft) := by
  refine ⟨?_, ?_, rfl, ?_, ?_⟩
  · intro f hf hne
    subst hf
    exact ⟨handleThumbnailFlow_calls respText c f gen hne,
      fun url hurl => handleThumbnailFlow_ok respText c f gen url hne hurl⟩
  · intro hfalse
    unfold handleThumbnailFlow
    rw [hfalse]
    simp
  · intro r f url hcall hf hne hurl
    subst hf
    unfold followUpFinalUpdate
    rw [hcall, handleThumbnailFlow_ok r.text c f gen url hne hurl]
  · intro ft gs tu m
    exact ⟨rfl, rfl⟩

/-- Witness for C8 at concrete inputs. -/
theorem handleThumbnailFlow_spec_witness :
    ((some "FRAME" : Option String) = some "FRAME" ∧ "FRAME" ≠ "" ∧
      (fun (_ : String) (_ : Option String) =>
        (Except.ok "URL" : Except Unit String)) "FRAME" (some "P") =
          Except.ok "URL") ∧
    handleThumbnailFlow "hi" (some ⟨some "P"⟩) (some "FRAME")
        (fun _ _ => Except.ok "URL") =
      ("hi", some "URL", [("FRAME", some "P")]) := by
  refine ⟨⟨rfl, by decide, rfl⟩, ?_⟩
  exact ((handleThumbnailFlow_spec "hi" ⟨some "P"⟩ (some "FRAME")
    (fun _ _ => Except.ok "URL")).1 "FRAME" rfl (by decide)).2 "URL" rfl

/-! ## C5: tool declaration and thumbnail call extraction -/

/-- C5 (amended): `sendFollowUpMessage` always declares exactly one
function tool, named `generateThumbnail`; its result's `thumbnailCall` is
set iff the *selected* call list — the first part's function call alone
when the first part of the first candidate's content carries one, otherwise
the SDK's collected `functionCalls` — contains a call named
`generateThumbnail`, and it then carries that call's `visualPrompt`
argument. -/
theorem sendFollowUp_tools_and_thumbnailCall (resp : GenResponse) (es : Bool) :
    ((sendFollowUpTools es).filterMap toolFunctionDecls = [[thumbnailTool]]) ∧
    thumbnailTool.name = "generateThumbnail" ∧
    ((extractThumbnailCall resp).isSome = true ↔
      ∃ fc ∈ selectedCalls resp, fc.name = "generateThumbnail") ∧
    (∀ t, extractThumbnailCall resp = some t →
      ∃ fc ∈ selectedCalls resp, fc.name = "generateThumbnail" ∧
        t.visualPrompt = lookupArg fc "visualPrompt") := by
  refine ⟨by cases es <;> rfl, rfl, ?_, ?_⟩
  · unfold extractThumbnailCall
    cases hl : selectedCalls resp with
    | nil => simp
    | cons a l =>
      simp only [List.length_cons, Nat.succ_pos, if_true, gt_iff_lt,
        Nat.zero_lt_succ]
      cases hf : List.find? (fun fc => fc.name = "generateThumbnail") (a :: l) with
      | some call =>
        simp only [Option.isSome_some, true_iff]
        refine ⟨call, List.mem_of_find?_eq_some hf, ?_⟩
        have := List.find?_some hf
        simpa using this
      | none =>
        simp only [Option.isSome_none, Bool.false_eq_true, false_iff,
          not_exists]
        intro fc hfc
        obtain ⟨hmem, hname⟩ := hfc
        rw [List.find?_eq_none] at hf
        exact absurd (by simpa using hname) (by simpa using hf fc hmem)
  · intro t ht
    unfold extractThumbnailCall at ht
    cases hl : selectedCalls resp with
    | nil => rw [hl] at ht; simp at ht
    | cons a l =>
      rw [hl] at ht
      simp only [List.length_cons, Nat.succ_pos, if_true, gt_iff_lt,
        Nat.zero_lt_succ] at ht
      cases hf : List.find? (fun fc => fc.name = "generateThumbnail") (a :: l) with
      | some call =>
        rw [hf] at ht
        refine ⟨call, ?_, ?_, ?_⟩
        · rw [← hl]; exact hl ▸ List.mem_of_find?_eq_some hf
        · have := List.find?_some hf
          simpa using this
        · cases ht; rfl
      | none => rw [hf] at ht; exact absurd ht (by simp)

/-- Counterexample to C5 as stated: the response's first part carries a
function call with a different name, a later part carries a
`generateThumbnail` call, yet `thumbnailCall` stays unset. -/
theorem thumbnailCall_shadowed_counterexample :
    (∃ p ∈ partsOfFirstCandidate
        ⟨[⟨⟨[⟨none, some ⟨"other", []⟩⟩,
             ⟨none, some ⟨"generateThumbnail", [("visualPrompt", "x")]⟩⟩]⟩⟩]⟩,
      ∃ fc, p.functionCall = some fc ∧ fc.name = "generateThumbnail") ∧
    extractThumbnailCall
        ⟨[⟨⟨[⟨none, some ⟨"other", []⟩⟩,
             ⟨none, some ⟨"generateThumbnail", [("visualPrompt", "x")]⟩⟩]⟩⟩]⟩ =
      none := by
  constructor
  · exact ⟨⟨none, some ⟨"generateThumbnail", [("visualPrompt", "x")]⟩⟩,
      by decide,
      ⟨"generateThumbnail", [("visualPrompt", "x")]⟩, rfl, rfl⟩
  · decide

/-! ## C2: conditional video re-attachment -/

/-- C2 (amended): the follow-up request carries the video bytes iff
`base64VideoData` is non-null *and non-empty* and the lowercased message
contains one of the re-analysis keywords; otherwise the parts consist of
the context prompt text alone. -/
theorem sendFollowUpParts_attachment (history : List Message)
    (newMessage : String) (b64 : Option String) (mime : String) (d : ℚ) :
    ((∃ p ∈ sendFollowUpParts history newMessage b64 mime d,
        p.isInline = true) ↔
      (jsTruthy b64 = true ∧
        ∃ k ∈ reAnalysisKeywords,
          jsIncludes (jsToLowerCase newMessage) k = true)) ∧
    (∀ v, b64 = some v → v ≠ "" → shouldReAnalyze newMessage = true →
      sendFollowUpParts history newMessage b64 mime d =
        [ReqPart.inlineData mime v,
         ReqPart.text (buildContextPrompt history newMessage d)]) ∧
    (shouldReAnalyze newMessage = false ∨ jsTruthy b64 = false →
      sendFollowUpParts history newMessage b64 mime d =
        [ReqPart.text (buildContextPrompt history newMessage d)]) := by
  have hkw : shouldReAnalyze newMessage = true ↔
      ∃ k ∈ reAnalysisKeywords, jsIncludes (jsToLowerCase newMessage) k = true := by
    unfold shouldReAnalyze
    exact List.any_eq_true
  refine ⟨?_, ?_, ?_⟩
  · unfold sendFollowUpParts
    by_cases hc : (shouldReAnalyze newMessage && jsTruthy b64) = true
    · rw [if_pos hc]
      have h12 : shouldReAnalyze newMessage = true ∧ jsTruthy b64 = true := by
        simpa using hc
      obtain ⟨h1, h2⟩ := h12
      constructor
      · intro _
        exact ⟨h2, hkw.mp h1⟩
      · intro _
        exact ⟨ReqPart.inlineData mime (b64.getD ""), by simp, rfl⟩
    · rw [if_neg hc]
      simp only [List.nil_append]
      constructor
      · rintro ⟨p, hp, hinl⟩
        rw [List.mem_singleton] at hp
        subst hp
        exact absurd hinl (by simp [ReqPart.isInline])
      · rintro ⟨ht, hks⟩
        refine absurd ?_ hc
        rw [hkw.mpr hks, ht]
        rfl
  · intro v hv hne hre
    subst hv
    unfold sendFollowUpParts
    have ht : jsTruthy (some v) = true := by simp [jsTruthy, hne]
    rw [hre, ht]
    rfl
  · intro hor
    unfold sendFollowUpParts
    have hc : (shouldReAnalyze newMessage && jsTruthy b64) = false := by
      rcases hor with h | h
      · rw [h]; rfl
      · rw [h, Bool.and_false]
    rw [hc]
    rfl

/-- Counterexample to C2 as stated: with a keyword present and
`base64VideoData` non-null but empty (the truthiness test fails), no video
part is attached. -/
theorem video_attachment_empty_base64_counterexample :
    (some "" ≠ (none : Option String)) ∧
    shouldReAnalyze "重新分析" = true ∧
    ∀ p ∈ sendFollowUpParts [] "重新分析" (some "") "video/mp4" 10,
      p.isInline = false := by
  refine ⟨by decide, by decide, ?_⟩
  intro p hp
  have hfalse : jsTruthy (some "") = false := by decide
  have h : sendFollowUpParts [] "重新分析" (some "") "video/mp4" 10 =
      [ReqPart.text (buildContextPrompt [] "重新分析" 10)] := by
    unfold sendFollowUpParts
    rw [hfalse, Bool.and_false]
    rfl
  rw [h, List.mem_singleton] at hp
  subst hp
  rfl

/-- Witness for the amended C2 at a concrete re-analysis request. -/
theorem sendFollowUpParts_attachment_witness :
    ((some "VID" : Option String) = some "VID" ∧ "VID" ≠ "" ∧
      shouldReAnalyze "re-analyze please" = true) ∧
    sendFollowUpParts [] "re-analyze please" (some "VID") "video/mp4" 10 =
      [ReqPart.inlineData "video/mp4" "VID",
       ReqPart.text (buildContextPrompt [] "re-analyze please" 10)] := by
  refine ⟨⟨rfl, by decide, by decide⟩, ?_⟩
  exact (sendFollowUpParts_attachment [] "re-analyze please" (some "VID")
    "video/mp4" 10).2.1 "VID" rfl (by decide) (by decide)

/-- Witness for the amended C5 at a concrete thumbnail-calling response. -/
theorem sendFollowUp_tools_and_thumbnailCall_witness :
    (extractThumbnailCall
        ⟨[⟨⟨[⟨none, some ⟨"generateThumbnail", [("visualPrompt", "x")]⟩⟩]⟩⟩]⟩ =
      some ⟨some "x"⟩) ∧
    ∃ fc ∈ selectedCalls
        ⟨[⟨⟨[⟨none, some ⟨"generateThumbnail", [("visualPrompt", "x")]⟩⟩]⟩⟩]⟩,
      fc.name = "generateThumbnail" ∧
      (⟨some "x"⟩ : ThumbnailCall).visualPrompt = lookupArg fc "visualPrompt" := by
  refine ⟨by decide, ?_⟩
  exact (sendFollowUp_tools_and_thumbnailCall
      ⟨[⟨⟨[⟨none, some ⟨"generateThumbnail", [("visualPrompt", "x")]⟩⟩]⟩⟩]⟩
      true).2.2.2 ⟨some "x"⟩ (by decide)

/-! ## C6: message-list updates -/

theorem opt_getD_orElse {α : Type} (a b : Option α) (d : α) :
    (a <|> b).getD d = a.getD (b.getD d) := by
  cases a <;> rfl

theorem applyU_id (u : MsgUpdate) (m : Message) : (applyU u m).id = m.id :=
  rfl

theorem applyU_applyU (u1 u2 : MsgUpdate) (m : Message) :
    applyU u2 (applyU u1 m) = applyU (mergeU u1 u2) m := by
  cases m
  simp [applyU, mergeU, opt_getD_orElse]

theorem applyUpdate_getD (msgId : String) (u : MsgUpdate) :
    ∀ (l : List Message) (i : Nat), i < l.length →
    (applyUpdate msgId u l).getD i dummyMessage =
      if (l.getD i dummyMessage).id = msgId then
        applyU u (l.getD i dummyMessage)
      else l.getD i dummyMessage := by
  intro l
  induction l with
  | nil => intro i hi; simp at hi
  | cons m ms ih =>
    intro i hi
    cases i with
    | zero =>
      show ((if m.id = msgId then applyU u m else m) ::
        applyUpdate msgId u ms).getD 0 dummyMessage = _
      rw [List.getD_cons_zero, List.getD_cons_zero]
    | succ i' =>
      show ((if m.id = msgId then applyU u m else m) ::
        applyUpdate msgId u ms).getD (i' + 1) dummyMessage = _
      rw [List.getD_cons_succ, List.getD_cons_succ]
      exact ih i' (by simpa using hi)

theorem applyUpdate_applyUpdate (msgId : String) (u1 u2 : MsgUpdate)
    (l : List Message) :
    applyUpdate msgId u2 (applyUpdate msgId u1 l) =
      applyUpdate msgId (mergeU u1 u2) l := by
  unfold applyUpdate
  rw [List.map_map]
  apply List.map_congr_left
  intro m _
  by_cases h : m.id = msgId
  · simp only [Function.comp_apply, h, if_true, applyU_id, applyU_applyU]
  · simp only [Function.comp_apply, h, if_false]

theorem applyUpdate_ids (msgId : String) (u : MsgUpdate) (l : List Message) :
    (applyUpdate msgId u l).map (·.id) = l.map (·.id) := by
  unfold applyUpdate
  rw [List.map_map]
  apply List.map_congr_left
  intro m _
  by_cases h : m.id = msgId <;> simp [h, applyU_id]

/-- C6: every streaming, completion or error update rewrites only the
messages whose `id` equals the request's placeholder identifier (at most
one such message when ids are distinct); the list's length, order and all
other messages are untouched, and a later update overwrites an earlier one
for the same identifier (field-wise, and outright for successive streaming
updates, which write the same field set). -/
theorem applyUpdate_frame_spec (msgId : String) (u u1 u2 : MsgUpdate)
    (l : List Message) (i j : Nat)
    (hi : i < l.length) (hj : j < l.length)
    (hnd : (l.map (·.id)).Nodup) :
    (applyUpdate msgId u l).length = l.length ∧
    (applyUpdate msgId u l).map (·.id) = l.map (·.id) ∧
    ((applyUpdate msgId u l).getD i dummyMessage =
      if (l.getD i dummyMessage).id = msgId then
        applyU u (l.getD i dummyMessage)
      else l.getD i dummyMessage) ∧
    ((l.getD i dummyMessage).id ≠ msgId →
      (applyUpdate msgId u l).getD i dummyMessage = l.getD i dummyMessage) ∧
    (applyUpdate msgId u2 (applyUpdate msgId u1 l) =
      applyUpdate msgId (mergeU u1 u2) l) ∧
    (∀ t1 s1 t2 s2,
      applyUpdate msgId (streamUpdate t2 s2)
          (applyUpdate msgId (streamUpdate t1 s1) l) =
        applyUpdate msgId (streamUpdate t2 s2) l) ∧
    ((applyUpdate msgId u l).getD i dummyMessage ≠ l.getD i dummyMessage →
      (applyUpdate msgId u l).getD j dummyMessage ≠ l.getD j dummyMessage →
      i = j) := by
  refine ⟨by simp [applyUpdate], applyUpdate_ids msgId u l,
    applyUpdate_getD msgId u l i hi, ?_, applyUpdate_applyUpdate msgId u1 u2 l,
    ?_, ?_⟩
  · intro hne
    rw [applyUpdate_getD msgId u l i hi, if_neg hne]
  · intro t1 s1 t2 s2
    exact applyUpdate_applyUpdate msgId (streamUpdate t1 s1) (streamUpdate t2 s2) l
  · intro hne_i hne_j
    have hid_i : (l.getD i dummyMessage).id = msgId := by
      by_contra hcon
      exact hne_i (by rw [applyUpdate_getD msgId u l i hi, if_neg hcon])
    have hid_j : (l.getD j dummyMessage).id = msgId := by
      by_contra hcon
      exact hne_j (by rw [applyUpdate_getD msgId u l j hj, if_neg hcon])
    have hinj := List.nodup_iff_injective_get.mp hnd
    have hlen : (l.map (·.id)).length = l.length := by simp
    have hgi : (l.map (·.id)).get ⟨i, by omega⟩ = msgId := by
      simp only [List.get_eq_getElem, List.getElem_map]
      rw [← List.getD_eq_getElem l dummyMessage hi]
      exact hid_i
    have hgj : (l.map (·.id)).get ⟨j, by omega⟩ = msgId := by
      simp only [List.get_eq_getElem, List.getElem_map]
      rw [← List.getD_eq_getElem l dummyMessage hj]
      exact hid_j
    have := hinj (hgi.trans hgj.symm)
    simpa using this

/-- Witness for C6 at a concrete two-message list. -/
theorem applyUpdate_frame_spec_witness :
    (0 < ([{ dummyMessage with id := "a" },
           { dummyMessage with id := "b" }] : List Message).length ∧
     1 < ([{ dummyMessage with id := "a" },
           { dummyMessage with id := "b" }] : List Message).length ∧
     (([{ dummyMessage with id := "a" },
        { dummyMessage with id := "b" }] : List Message).map (·.id)).Nodup) ∧
    (applyUpdate "b" (errorUpdate "oops")
        [{ dummyMessage with id := "a" }, { dummyMessage with id := "b" }]).map
      (·.id) =
      ([{ dummyMessage with id := "a" },
        { dummyMessage with id := "b" }] : List Message).map (·.id) := by
  refine ⟨⟨by decide, by decide, by decide⟩, ?_⟩
  exact (applyUpdate_frame_spec "b" (errorUpdate "oops") (errorUpdate "e1")
    (errorUpdate "e2")
    [{ dummyMessage with id := "a" }, { dummyMessage with id := "b" }]
    0 1 (by decide) (by decide) (by decide)).2.1

/-! ## C3: streaming relay -/

theorem streamStep_eq (st : StreamState) (c : StreamChunk) :
    streamStep st c =
      { fullText := st.fullText ++ chunkText c,
        groundingSources := st.groundingSources ++ chunkWebs c,
        callbackLog := st.callbackLog ++
          [(st.fullText ++ chunkText c,
            passedSources (st.groundingSources ++ chunkWebs c))] } := by
  unfold streamStep chunkText
  cases hc : c.text with
  | none => simp [strAppend_empty]
  | some t =>
    by_cases ht : t = ""
    · subst ht
      simp [strAppend_empty]
    · simp [ht]

theorem foldl_streamStep_spec (chunks : List StreamChunk) :
    ∀ st : StreamState,
      chunks.foldl streamStep st =
        { fullText := st.fullText ++ concatTexts chunks,
          groundingSources := st.groundingSources ++ collectSources chunks,
          callbackLog := st.callbackLog ++
            expectedLog st.fullText st.groundingSources chunks } := by
  induction chunks with
  | nil =>
    intro st
    simp [concatTexts, collectSources, expectedLog, strAppend_empty]
  | cons c cs ih =>
    intro st
    show cs.foldl streamStep (streamStep st c) = _
    rw [streamStep_eq, ih]
    have h1 : concatTexts (c :: cs) = chunkText c ++ concatTexts cs := rfl
    have h2 : collectSources (c :: cs) = chunkWebs c ++ collectSources cs := rfl
    have h3 : expectedLog st.fullText st.groundingSources (c :: cs) =
        (st.fullText ++ chunkText c,
         passedSources (st.groundingSources ++ chunkWebs c)) ::
          expectedLog (st.fullText ++ chunkText c)
            (st.groundingSources ++ chunkWebs c) cs := rfl
    rw [h1, h2, h3]
    simp [strAppend_assoc, List.append_assoc]

theorem expectedLog_length (chunks : List StreamChunk) :
    ∀ (ft0 : String) (gs0 : List Source),
      (expectedLog ft0 gs0 chunks).length = chunks.length := by
  induction chunks with
  | nil => intro ft0 gs0; rfl
  | cons c cs ih =>
    intro ft0 gs0
    unfold expectedLog
    simp [ih]

theorem expectedLog_getD (chunks : List StreamChunk) :
    ∀ (ft0 : String) (gs0 : List Source) (i : Nat), i < chunks.length →
      (expectedLog ft0 gs0 chunks).getD i ("", none) =
        (ft0 ++ concatTexts (chunks.take (i + 1)),
         passedSources (gs0 ++ collectSources (chunks.take (i + 1)))) := by
  induction chunks with
  | nil => intro ft0 gs0 i hi; simp at hi
  | cons c cs ih =>
    intro ft0 gs0 i hi
    have h3 : expectedLog ft0 gs0 (c :: cs) =
        (ft0 ++ chunkText c, passedSources (gs0 ++ chunkWebs c)) ::
          expectedLog (ft0 ++ chunkText c) (gs0 ++ chunkWebs c) cs := rfl
    cases i with
    | zero =>
      rw [h3, List.getD_cons_zero]
      simp [concatTexts, collectSources, strAppend_empty]
    | succ i' =>
      rw [h3, List.getD_cons_succ]
      rw [ih (ft0 ++ chunkText c) (gs0 ++ chunkWebs c) i' (by simpa using hi)]
      simp [concatTexts, collectSources, strAppend_assoc, List.append_assoc]

theorem concatTexts_take_succ (chunks : List StreamChunk) :
    ∀ i : Nat, i < chunks.length →
      concatTexts (chunks.take (i + 1)) =
        concatTexts (chunks.take i) ++ chunkText (chunks.getD i dummyChunk) := by
  induction chunks with
  | nil => intro i hi; simp at hi
  | cons c cs ih =>
    intro i hi
    cases i with
    | zero =>
      rw [List.getD_cons_zero]
      simp [concatTexts, strAppend_empty, strEmpty_append]
    | succ i' =>
      rw [List.getD_cons_succ, List.take_succ_cons, List.take_succ_cons]
      show chunkText c ++ concatTexts (cs.take (i' + 1)) = _
      rw [ih i' (by simpa using hi)]
      rw [← strAppend_assoc]
      rfl

/-- C3: the streaming loop invokes the UI callback once per received chunk,
passing it the text accumulated so far (which extends the previous
callback's text by exactly the arriving chunk's text), and the returned
string is the concatenation of all chunk texts in arrival order. -/
theorem generateVideoCommentary_streaming (chunks : List StreamChunk)
    (i : Nat) (h : i < chunks.length) :
    (runStream chunks).fullText = concatTexts chunks ∧
    (runStream chunks).callbackLog.length = chunks.length ∧
    ((runStream chunks).callbackLog.getD i ("", none)).1 =
      concatTexts (chunks.take (i + 1)) ∧
    concatTexts (chunks.take (i + 1)) =
      concatTexts (chunks.take i) ++ chunkText (chunks.getD i dummyChunk) := by
  have hrun := foldl_streamStep_spec chunks
    { fullText := "", groundingSources := [], callbackLog := [] }
  unfold runStream
  rw [hrun]
  refine ⟨strEmpty_append _, by simp [expectedLog_length], ?_,
    concatTexts_take_succ chunks i h⟩
  dsimp only
  rw [List.nil_append, expectedLog_getD chunks "" [] i h]
  exact strEmpty_append _

/-- Witness for C3 at a concrete two-chunk stream. -/
theorem generateVideoCommentary_streaming_witness :
    (1 < ([⟨some "a", []⟩, ⟨some "b", []⟩] : List StreamChunk).length) ∧
    (runStream [⟨some "a", []⟩, ⟨some "b", []⟩]).fullText =
      concatTexts [⟨some "a", []⟩, ⟨some "b", []⟩] := by
  refine ⟨by decide, ?_⟩
  exact (generateVideoCommentary_streaming
    [⟨some "a", []⟩, ⟨some "b", []⟩] 1 (by decide)).1

/-! ## C10: grounding-source deduplication -/

theorem foldl_addKey_mem (l : List String) :
    ∀ (acc : List String) (u : String),
      u ∈ l.foldl addKey acc ↔ u ∈ acc ∨ u ∈ l := by
  induction l with
  | nil => intro acc u; simp
  | cons v vs ih =>
    intro acc u
    show u ∈ vs.foldl addKey (addKey acc v) ↔ _
    rw [ih]
    unfold addKey
    by_cases hv : v ∈ acc
    · rw [if_pos hv]
      constructor
      · rintro (h | h)
        · exact Or.inl h
        · exact Or.inr (List.mem_cons_of_mem v h)
      · rintro (h | h)
        · exact Or.inl h
        · rcases List.mem_cons.mp h with rfl | h'
          · exact Or.inl hv
          · exact Or.inr h'
    · rw [if_neg hv]
      simp only [List.mem_append, List.mem_singleton, List.mem_cons]
      tauto

theorem mem_firstOccKeys (u : String) (l : List String) :
    u ∈ firstOccKeys l ↔ u ∈ l := by
  unfold firstOccKeys
  rw [foldl_addKey_mem]
  simp

theorem foldl_addKey_nodup (l : List String) :
    ∀ acc : List String, acc.Nodup → (l.foldl addKey acc).Nodup := by
  induction l with
  | nil => intro acc h; exact h
  | cons v vs ih =>
    intro acc h
    show (vs.foldl addKey (addKey acc v)).Nodup
    apply ih
    unfold addKey
    by_cases hv : v ∈ acc
    · rwa [if_pos hv]
    · rw [if_neg hv]
      exact List.Nodup.append h (List.nodup_singleton v)
        (fun a ha ha' => hv ((List.mem_singleton.mp ha') ▸ ha))

theorem nodup_firstOccKeys (l : List String) : (firstOccKeys l).Nodup :=
  foldl_addKey_nodup l [] List.nodup_nil

theorem firstOccKeys_concat (us : List String) (u : String) :
    firstOccKeys (us ++ [u]) = addKey (firstOccKeys us) u :=
  List.foldl_concat addKey [] u us

theorem jsMapDedup_concat (l : List Source) (s : Source) :
    jsMapDedup (l ++ [s]) = updateOrAppend (jsMapDedup l) s :=
  List.foldl_concat updateOrAppend [] s l

theorem updateOrAppend_uris (acc : List Source) (s : Source) :
    (updateOrAppend acc s).map (·.uri) = addKey (acc.map (·.uri)) s.uri := by
  unfold updateOrAppend addKey
  by_cases h : ∃ x ∈ acc, x.uri = s.uri
  · have hmem : s.uri ∈ acc.map (·.uri) := by
      obtain ⟨x, hx, he⟩ := h
      exact List.mem_map.mpr ⟨x, hx, he⟩
    rw [if_pos h, if_pos hmem, List.map_map]
    apply List.map_congr_left
    intro x _
    by_cases hx : x.uri = s.uri
    · simp [hx]
    · simp [hx]
  · have hmem : s.uri ∉ acc.map (·.uri) := by
      intro hc
      obtain ⟨x, hx, he⟩ := List.mem_map.mp hc
      exact h ⟨x, hx, he⟩
    rw [if_neg h, if_neg hmem, List.map_append]
    rfl

theorem jsMapDedup_uris (l : List Source) :
    (jsMapDedup l).map (·.uri) = firstOccKeys (l.map (·.uri)) := by
  induction l using List.reverseRecOn with
  | nil => rfl
  | append_singleton l s ih =>
    rw [jsMapDedup_concat, updateOrAppend_uris, ih, List.map_append]
    show _ = firstOccKeys (l.map (·.uri) ++ [s.uri])
    rw [firstOccKeys_concat]

theorem updateOrAppend_ne_nil (acc : List Source) (s : Source) :
    updateOrAppend acc s ≠ [] := by
  unfold updateOrAppend
  by_cases h : ∃ x ∈ acc, x.uri = s.uri
  · rw [if_pos h]
    intro hmap
    rw [List.map_eq_nil_iff] at hmap
    obtain ⟨x, hx, _⟩ := h
    rw [hmap] at hx
    exact absurd hx (List.not_mem_nil x)
  · rw [if_neg h]
    simp

theorem foldl_updateOrAppend_ne_nil (l : List Source) :
    ∀ acc : List Source, acc ≠ [] → l.foldl updateOrAppend acc ≠ [] := by
  induction l with
  | nil => intro acc h; exact h
  | cons c cs ih =>
    intro acc _
    exact ih (updateOrAppend acc c) (updateOrAppend_ne_nil acc c)

theorem jsMapDedup_eq_nil_iff (l : List Source) :
    jsMapDedup l = [] ↔ l = [] := by
  constructor
  · intro h
    cases l with
    | nil => rfl
    | cons c cs =>
      exfalso
      have hne : jsMapDedup (c :: cs) ≠ [] := by
        show cs.foldl updateOrAppend (updateOrAppend [] c) ≠ []
        exact foldl_updateOrAppend_ne_nil cs _ (updateOrAppend_ne_nil [] c)
      exact hne h
  · rintro rfl
    rfl

theorem jsMapDedup_last (l : List Source) :
    ∀ x ∈ jsMapDedup l,
      (l.filter (fun y => y.uri = x.uri)).getLast? = some x := by
  induction l using List.reverseRecOn with
  | nil => intro x hx; exact absurd hx (List.not_mem_nil x)
  | append_singleton l s ih =>
    intro x hx
    rw [jsMapDedup_concat] at hx
    rw [List.filter_append]
    unfold updateOrAppend at hx
    by_cases hc : ∃ y ∈ jsMapDedup l, y.uri = s.uri
    · rw [if_pos hc] at hx
      obtain ⟨y, hy, hxy⟩ := List.mem_map.mp hx
      by_cases hys : y.uri = s.uri
      · rw [if_pos hys] at hxy
        subst hxy
        have hfs : List.filter (fun z => z.uri = s.uri) [s] = [s] := by simp
        rw [hfs, List.getLast?_concat]
      · rw [if_neg hys] at hxy
        subst hxy
        have hsy : ¬ (s.uri = y.uri) := fun h => hys h.symm
        have hfs : List.filter (fun z => z.uri = y.uri) [s] = [] := by
          simp [hsy]
        rw [hfs, List.append_nil]
        exact ih y hy
    · rw [if_neg hc] at hx
      rcases List.mem_append.mp hx with hx' | hx'
      · have hxs : x.uri ≠ s.uri := fun he => hc ⟨x, hx', he⟩
        have hsx : ¬ (s.uri = x.uri) := fun h => hxs h.symm
        have hfs : List.filter (fun z => z.uri = x.uri) [s] = [] := by
          simp [hsx]
        rw [hfs, List.append_nil]
        exact ih x hx'
      · rw [List.mem_singleton] at hx'
        subst hx'
        have hfs : List.filter (fun z => z.uri = x.uri) [x] = [x] := by simp
        rw [hfs, List.getLast?_concat]

/-- C10: the source list handed to the streaming callback holds at most one
entry per `uri` — the `uri`s are deduplicated in first-occurrence order,
each entry being the most recently received source for its `uri` — and
`undefined` is passed instead of an empty list when no sources have been
collected. -/
theorem grounding_dedup_spec (chunks : List StreamChunk) (i : Nat)
    (h : i < chunks.length) :
    ((((runStream chunks).callbackLog.getD i ("", none)).2 = none) ↔
      collectSources (chunks.take (i + 1)) = []) ∧
    ∀ ls, ((runStream chunks).callbackLog.getD i ("", none)).2 = some ls →
      (ls.map (·.uri)).Nodup ∧
      ls.map (·.uri) =
        firstOccKeys ((collectSources (chunks.take (i + 1))).map (·.uri)) ∧
      ∀ s ∈ ls,
        ((collectSources (chunks.take (i + 1))).filter
          (fun x => x.uri = s.uri)).getLast? = some s := by
  have hrun := foldl_streamStep_spec chunks
    { fullText := "", groundingSources := [], callbackLog := [] }
  have harg : ((runStream chunks).callbackLog.getD i ("", none)).2 =
      passedSources (collectSources (chunks.take (i + 1))) := by
    unfold runStream
    rw [hrun]
    dsimp only
    rw [List.nil_append, expectedLog_getD chunks "" [] i h]
    rw [List.nil_append]
  rw [harg]
  constructor
  · unfold passedSources
    by_cases hlen : (jsMapDedup (collectSources (chunks.take (i + 1)))).length > 0
    · rw [if_pos hlen]
      constructor
      · intro hc
        exact absurd hc (by simp)
      · intro hc
        rw [hc] at hlen
        exact absurd hlen (by simp [jsMapDedup])
    · rw [if_neg hlen]
      constructor
      · intro _
        exact (jsMapDedup_eq_nil_iff _).mp (List.length_eq_zero.mp (by omega))
      · intro _
        rfl
  · intro ls hls
    unfold passedSources at hls
    by_cases hlen : (jsMapDedup (collectSources (chunks.take (i + 1)))).length > 0
    · rw [if_pos hlen] at hls
      have hls' : jsMapDedup (collectSources (chunks.take (i + 1))) = ls :=
        Option.some.inj hls
      subst hls'
      exact ⟨jsMapDedup_uris _ ▸ nodup_firstOccKeys _, jsMapDedup_uris _,
        jsMapDedup_last _⟩
    · rw [if_neg hlen] at hls
      exact absurd hls (by simp)

/-- Witness for C10: one chunk carrying two sources with the same uri. -/
theorem grounding_dedup_spec_witness :
    (0 < ([⟨none, [⟨some ⟨"t1", "u"⟩⟩, ⟨some ⟨"t2", "u"⟩⟩]⟩] :
        List StreamChunk).length) ∧
    (((runStream [⟨none, [⟨some ⟨"t1", "u"⟩⟩, ⟨some ⟨"t2", "u"⟩⟩]⟩]).callbackLog.getD
        0 ("", none)).2 = some [⟨"t2", "u"⟩]) ∧
    (([⟨"t2", "u"⟩] : List Source).map (·.uri)).Nodup := by
  refine ⟨by decide, by decide, ?_⟩
  exact ((grounding_dedup_spec
      [⟨none, [⟨some ⟨"t1", "u"⟩⟩, ⟨some ⟨"t2", "u"⟩⟩]⟩] 0 (by decide)).2
    [⟨"t2", "u"⟩] (by decide)).1
